import Mathlib

/-
Verification development for the climate-analysis repository.

The numerical core of the repository is shallowly embedded here:
  - src/data_processing/remove_drift.py   (apply_polynomial, coefficient_sanity_check,
                                           check_start_time)
  - src/data_processing/calc_index_composite.py  (threshold partition, composite mean)
  - src/data_processing/calc_composite.py (bound/limit arity check)
  - src/modules/convenient_universal.py   (adjust_lon_range, get_threshold,
                                           get_significance)

Machine floats of the source are modelled by rationals; numpy arrays by lists or
by functions out of Fin-index types.  Fallible code paths (python exceptions:
failing asserts, IndexError, NameError, TypeError) are modelled with Option,
none standing for an uncaught exception.
-/

/-
## Polynomial drift model (remove_drift.py, apply_polynomial)

The source evaluates `0 + b*x + c*x**2 + d*x**3` (the intercept `a` is set to
zero so only deviations from the start point are subtracted).  numpy evaluates
the expression elementwise; `applyPolynomialVec` is the per-element evaluation
used on the 1-D coefficient path, `applyPolynomialGrid` the per-element
evaluation on the multi-dimensional path, where `x_data` is broadcast with
trailing singleton axes and each coefficient slice is repeated along a new
leading time axis.  The spatial shape is modelled with two axes `Fin m × Fin n`;
`n` indexes the last axis, which is the one the chunked mode loops over.
-/

/-- Per-element cubic evaluation of the 1-D (spatially uniform) coefficient
path of `apply_polynomial`: the intercept `a` is replaced by the literal `0`
of the source line `result = 0 + b*x + c*x**2 + d*x**3`. -/
def applyPolynomialVec (a b c d : ℚ) (x : ℚ) : ℚ :=
  let _ := a
  0 + b * x + c * x ^ 2 + d * x ^ 3

/-- Unchunked evaluation on a 4×(m×n) coefficient array: pointwise value of
`0 + b*x + c*x**2 + d*x**3` after numpy broadcasting (`x` expanded with
trailing singleton axes, coefficients repeated along the new time axis). -/
def applyPolynomialGrid {T m n : ℕ} (x : Fin T → ℚ) (cf : Fin 4 → Fin m → Fin n → ℚ) :
    Fin T → Fin m → Fin n → ℚ :=
  fun t i j => 0 + cf 1 i j * x t + cf 2 i j * x t ^ 2 + cf 3 i j * x t ^ 3

/-- Body of the chunk loop: `result[..., index] = 0 + b[..., index]*x[..., 0]
+ c[..., index]*x[..., 0]**2 + d[..., index]*x[..., 0]**3` overwrites the
last-axis slice `j` of the accumulated result. -/
def gridChunkStep {T m n : ℕ} (x : Fin T → ℚ) (cf : Fin 4 → Fin m → Fin n → ℚ)
    (res : Fin T → Fin m → Fin n → ℚ) (j : Fin n) : Fin T → Fin m → Fin n → ℚ :=
  fun t i j2 =>
    if j2 = j then 0 + cf 1 i j * x t + cf 2 i j * x t ^ 2 + cf 3 i j * x t ^ 3
    else res t i j2

/-- Chunked evaluation on a 4×(m×n) coefficient array: the result starts as
`numpy.zeros` and the loop `for index in range(0, shape[-1])` fills one
last-axis slice at a time. -/
def applyPolynomialGridChunk {T m n : ℕ} (x : Fin T → ℚ) (cf : Fin 4 → Fin m → Fin n → ℚ) :
    Fin T → Fin m → Fin n → ℚ :=
  (List.finRange n).foldl (gridChunkStep x cf) (fun _ _ _ => 0)

/-- Coefficient argument of `apply_polynomial`: either a length-4 vector
(`coefficient_data.ndim == 1`) or a 4×(m×n) array. -/
inductive Coeffs : Type where
  | vec (a b c d : ℚ) : Coeffs
  | grid (m n : ℕ) (cf : Fin 4 → Fin m → Fin n → ℚ) : Coeffs

/-- Result array of `apply_polynomial`: 1-D over time for vector coefficients,
(time × m × n) for gridded coefficients. -/
inductive PolyResult : Type where
  | oneD (T : ℕ) (v : Fin T → ℚ) : PolyResult
  | twoD (T m n : ℕ) (r : Fin T → Fin m → Fin n → ℚ) : PolyResult

/-- Embedding of `apply_polynomial(x_data, coefficient_data, chunk)`.  On the
1-D coefficient path with `chunk=True` the source evaluates
`coefficient_dict['b'].shape[-1]` on a numpy scalar, whose shape is the empty
tuple, raising IndexError; this is modelled by `none`. -/
def apply_polynomial (T : ℕ) (x : Fin T → ℚ) (co : Coeffs) (chunk : Bool) :
    Option PolyResult :=
  match co with
  | .vec a b c d =>
      if chunk then none
      else some (.oneD T (fun t => applyPolynomialVec a b c d (x t)))
  | .grid m n cf =>
      if chunk then some (.twoD T m n (applyPolynomialGridChunk x cf))
      else some (.twoD T m n (applyPolynomialGrid x cf))

/-
## Start-time alignment check (remove_drift.py, check_start_time)

Source:
  time_diff = time_values[0] - (coefficient_cube.attributes['time_start'] + branch_time)
  if annual: assert 100 < time_diff < 200
  else:      assert time_diff == 0
Indexing an empty time axis would raise IndexError; modelled as failure.
-/

/-- Embedding of `check_start_time`: true iff the assertion passes. -/
def check_start_time (time_values : List ℚ) (time_start branch_time : ℚ)
    (annual : Bool) : Bool :=
  match time_values with
  | [] => false
  | v :: _ =>
      let time_diff := v - (time_start + branch_time)
      if annual then decide (100 < time_diff) && decide (time_diff < 200)
      else decide (time_diff = 0)

/-
## Bound/limit arity check (calc_composite.py, main, lines 34-39)

Source:
  if inargs.bound == 'between':
      assert len(inargs.limit) == 2
      limit = (inargs.limit[0], inargs.limit[1])
  else:
      limit = inargs.limit[0]
A failing assert (ArityError in the spec taxonomy) and the IndexError on an
empty limit list are both modelled by `none`.
-/

/-- Embedding of the limit-resolution step of `calc_composite.main`. -/
def resolve_limit (bound : String) (limit : List ℚ) : Option (ℚ ⊕ (ℚ × ℚ)) :=
  if bound = "between" then
    match limit with
    | [a, b] => some (Sum.inr (a, b))
    | _ => none
  else
    match limit with
    | a :: _ => some (Sum.inl a)
    | [] => none

/-
## Threshold partition and composite mean (calc_index_composite.py, main)

Source:
  included_indexes = var_indata.data > threshold
  excluded_indexes = numpy.invert(included_indexes)
  metric_data_included = numpy.ma.masked_array(metric_data, mask=included_indexes)
  metric_data_excluded = numpy.ma.masked_array(metric_data, mask=excluded_indexes)
  composite_mean = metric_data_included.mean(axis=0)
The threshold has been resized to the sample's shape, so the comparison is
elementwise; a single spatial column (the time axis only) is modelled, with a
scalar threshold.  In a numpy masked array, mask value True marks an element as
invalid, i.e. excluded from statistics such as `mean`.
-/

/-- Embedding of `included_indexes = var_indata.data > threshold`. -/
def included_indexes (sample : List ℚ) (threshold : ℚ) : List Bool :=
  sample.map (fun v => decide (threshold < v))

/-- Embedding of `excluded_indexes = numpy.invert(included_indexes)`. -/
def excluded_indexes (sample : List ℚ) (threshold : ℚ) : List Bool :=
  (included_indexes sample threshold).map (fun b => !b)

/-- Mean of a numpy masked array along the time axis: entries whose mask bit
is True are invalid and do not participate. -/
def maskedMean (vals : List ℚ) (mask : List Bool) : ℚ :=
  let valid := ((vals.zip mask).filter (fun vm => vm.2 = false)).map Prod.fst
  valid.sum / valid.length

/-- Embedding of `composite_mean = metric_data_included.mean(axis=0)` where
`metric_data_included = numpy.ma.masked_array(metric_data, mask=included_indexes)`. -/
def composite_mean (sample metric : List ℚ) (threshold : ℚ) : ℚ :=
  maskedMean metric (included_indexes sample threshold)

/-- Modelled from the spec, for comparison with the code: `composite =
mean(metric[included], axis=time)` — the arithmetic mean of the metric values
at exactly the positions where the sample exceeds the threshold. -/
def composite_spec_mean (sample metric : List ℚ) (threshold : ℚ) : ℚ :=
  let incl := ((metric.zip sample).filter (fun ms => decide (threshold < ms.2))).map Prod.fst
  incl.sum / incl.length

/-
## Claims C3, C7, C8, C9
-/

/-- C3: for every coefficient array (a, b, c, d) and every time offset t, the
evaluated drift signal equals b·t + c·t² + d·t³ with the intercept a excluded
(on both the 1-D and the gridded path); hence at t = 0 the drift signal is 0,
and for uniform coefficients [300, 1, 0, 0] with offsets [0, 10, 20] the drift
signal is [0, 10, 20], so subtracting it from raw values [300, 311, 322]
yields [300, 301, 302]. -/
theorem C3_drift_signal :
    (∀ a b c d x : ℚ, applyPolynomialVec a b c d x = b * x + c * x ^ 2 + d * x ^ 3)
  ∧ (∀ (T m n : ℕ) (x : Fin T → ℚ) (cf : Fin 4 → Fin m → Fin n → ℚ)
        (t : Fin T) (i : Fin m) (j : Fin n),
        applyPolynomialGrid x cf t i j
          = cf 1 i j * x t + cf 2 i j * x t ^ 2 + cf 3 i j * x t ^ 3)
  ∧ (∀ a b c d x : ℚ, x = 0 → applyPolynomialVec a b c d x = 0)
  ∧ List.map (applyPolynomialVec 300 1 0 0) [0, 10, 20] = ([0, 10, 20] : List ℚ)
  ∧ List.zipWith (fun raw t => raw - applyPolynomialVec 300 1 0 0 t)
      [300, 311, 322] [0, 10, 20] = ([300, 301, 302] : List ℚ) := by
  refine ⟨fun a b c d x => by simp [applyPolynomialVec],
          fun T m n x cf t i j => by simp [applyPolynomialGrid],
          fun a b c d x hx => by simp [applyPolynomialVec, hx],
          ?_, ?_⟩
  · norm_num [applyPolynomialVec]
  · norm_num [applyPolynomialVec]

/-- Witness for C3: the drift signal at time offset 0 is exactly 0. -/
theorem C3_drift_signal_witness : applyPolynomialVec 300 1 0 0 0 = 0 :=
  C3_drift_signal.2.2.1 300 1 0 0 0 rfl

/-- C7: the start-time alignment check succeeds in annual mode exactly when
the first adjusted time value lies strictly between 100 and 200 time units
past the epoch (time_start + branch_time); value 150 with epoch 0 passes and
value 50 fails; in monthly (non-annual) mode it succeeds exactly when the
first value equals the epoch. -/
theorem C7_check_start_time :
    (∀ (v : ℚ) (rest : List ℚ) (ts bt : ℚ),
        check_start_time (v :: rest) ts bt true = true ↔
          (100 < v - (ts + bt) ∧ v - (ts + bt) < 200))
  ∧ (∀ (v : ℚ) (rest : List ℚ) (ts bt : ℚ),
        check_start_time (v :: rest) ts bt false = true ↔ v - (ts + bt) = 0)
  ∧ check_start_time [150] 0 0 true = true
  ∧ check_start_time [50] 0 0 true = false := by
  refine ⟨fun v rest ts bt => ?_, fun v rest ts bt => ?_,
    by norm_num [check_start_time], by norm_num [check_start_time]⟩
  · simp [check_start_time]
  · simp [check_start_time]

/-- C8: with bound 'between', the limit resolution of the composite
calculation succeeds exactly when two limits are supplied, and with limits
[a, b] it proceeds with the pair (a, b). -/
theorem C8_between_arity :
    (∀ limit : List ℚ, (resolve_limit "between" limit).isSome = true ↔ limit.length = 2)
  ∧ (∀ a b : ℚ, resolve_limit "between" [a, b] = some (Sum.inr (a, b))) := by
  constructor
  · intro limit
    match limit with
    | [] => simp [resolve_limit]
    | [a] => simp [resolve_limit]
    | [a, b] => simp [resolve_limit]
    | a :: b :: c :: rest => simp [resolve_limit]
  · intro a b
    simp [resolve_limit]

/-- C9: the included and excluded masks are complementary: at every position
of the sample, included = (sample > threshold), excluded is its negation, and
exactly one of the two holds. -/
theorem C9_partition (sample : List ℚ) (threshold : ℚ) (i : ℕ) (v : ℚ)
    (h : sample[i]? = some v) :
    (included_indexes sample threshold)[i]? = some (decide (threshold < v))
  ∧ (excluded_indexes sample threshold)[i]? = some (!decide (threshold < v))
  ∧ ((decide (threshold < v) = true ∧ (!decide (threshold < v)) = false)
      ∨ (decide (threshold < v) = false ∧ (!decide (threshold < v)) = true)) := by
  refine ⟨?_, ?_, ?_⟩
  · simp [included_indexes, List.getElem?_map, h]
  · simp [excluded_indexes, included_indexes, List.getElem?_map, h]
  · cases hb : decide (threshold < v) <;> simp

/-- Witness for C9 at sample [1, 5], threshold 3, position 0. -/
theorem C9_partition_witness :
    (included_indexes [1, 5] 3)[0]? = some (decide ((3 : ℚ) < 1))
  ∧ (excluded_indexes [1, 5] 3)[0]? = some (!decide ((3 : ℚ) < 1))
  ∧ ((decide ((3 : ℚ) < 1) = true ∧ (!decide ((3 : ℚ) < 1)) = false)
      ∨ (decide ((3 : ℚ) < 1) = false ∧ (!decide ((3 : ℚ) < 1)) = true)) :=
  C9_partition [1, 5] 3 0 1 rfl

/-
## Chunked versus unchunked polynomial evaluation (claim C2)
-/

/-- Effect of the chunk loop over any list of last-axis indices: a slice is
the polynomial value once its index has been processed, and the initial
zeros otherwise. -/
theorem gridChunk_foldl {T m n : ℕ} (x : Fin T → ℚ) (cf : Fin 4 → Fin m → Fin n → ℚ)
    (l : List (Fin n)) (acc : Fin T → Fin m → Fin n → ℚ)
    (t : Fin T) (i : Fin m) (j : Fin n) :
    (l.foldl (gridChunkStep x cf) acc) t i j =
      if j ∈ l then 0 + cf 1 i j * x t + cf 2 i j * x t ^ 2 + cf 3 i j * x t ^ 3
      else acc t i j := by
  induction l generalizing acc with
  | nil => simp
  | cons a l ih =>
      simp only [List.foldl_cons, ih, List.mem_cons]
      by_cases hj : j = a
      · subst hj
        by_cases hl : j ∈ l <;> simp [gridChunkStep, hl]
      · by_cases hl : j ∈ l <;> simp [gridChunkStep, hj, hl]

/-- On gridded coefficients the chunk loop reproduces the unchunked
broadcast evaluation pointwise. -/
theorem applyPolynomialGridChunk_eq {T m n : ℕ} (x : Fin T → ℚ)
    (cf : Fin 4 → Fin m → Fin n → ℚ) :
    applyPolynomialGridChunk x cf = applyPolynomialGrid x cf := by
  funext t i j
  rw [applyPolynomialGridChunk, gridChunk_foldl]
  simp [applyPolynomialGrid, List.mem_finRange]

/-- Counterexample to C2 as stated: on a length-4 coefficient vector the
chunked mode raises IndexError (`coefficient_dict['b']` is a numpy scalar,
whose shape is the empty tuple, so `shape[-1]` fails), while the unchunked
mode returns the evaluated array; the two runs do not return the same
result. -/
theorem C2_counterexample :
    apply_polynomial 1 (fun _ => (0 : ℚ)) (Coeffs.vec 300 1 0 0) true
      ≠ apply_polynomial 1 (fun _ => (0 : ℚ)) (Coeffs.vec 300 1 0 0) false := by
  simp [apply_polynomial]

/-- C2 (amended): for every 1-D array of time offsets and every 4×(spatial)
coefficient array of rank at least 2, chunked evaluation returns exactly the
same result array as unchunked evaluation. -/
theorem C2_chunk_equivalence (T m n : ℕ) (x : Fin T → ℚ)
    (cf : Fin 4 → Fin m → Fin n → ℚ) :
    apply_polynomial T x (Coeffs.grid m n cf) true
      = apply_polynomial T x (Coeffs.grid m n cf) false := by
  simp [apply_polynomial, applyPolynomialGridChunk_eq]

/-
## Threshold resolution (convenient_universal.py, get_threshold)

Source:
  if 'pct' in threshold_str:
      value = float(re.sub('pct', '', threshold_str))
      threshold_float = numpy.percentile(data, value, axis=axis)
  else:
      threshold_float = float(threshold_str)
The module imports only numpy and scipy.stats; the name `re` is never
imported, so entering the percentile branch raises NameError at `re.sub`.
That uncaught exception is modelled by `none`.  The literal branch calls the
python builtin float(); it is modelled for plain decimal numerals (optional
sign, optional fractional part), which is what thresholds look like.
-/

/-- Boolean substring test on character lists (python `in` on strings). -/
def containsSub (needle hay : List Char) : Bool :=
  decide (needle <:+: hay)

/-- Digit-string accumulator for the float() model; any non-digit fails. -/
def parseDigits (cs : List Char) : Option ℕ :=
  cs.foldl
    (fun acc c =>
      match acc with
      | none => none
      | some nv => if c.isDigit then some (nv * 10 + (c.toNat - 48)) else none)
    (some 0)

/-- Model of the python builtin float() on plain decimal numerals. -/
def parseDecimal (s : String) : Option ℚ :=
  let cs0 := s.data
  let signSplit : ℚ × List Char :=
    match cs0 with
    | '-' :: rest => (-1, rest)
    | _ => (1, cs0)
  let sgn := signSplit.1
  let cs := signSplit.2
  let intPart := cs.takeWhile (fun c => c != '.')
  let rest := cs.dropWhile (fun c => c != '.')
  match rest with
  | [] =>
      if intPart.isEmpty then none
      else (parseDigits intPart).map (fun nv => sgn * (nv : ℚ))
  | _ :: fracPart =>
      if intPart.isEmpty && fracPart.isEmpty then none
      else
        match parseDigits intPart, parseDigits fracPart with
        | some nv, some fv =>
            some (sgn * ((nv : ℚ) + (fv : ℚ) / 10 ^ fracPart.length))
        | _, _ => none

/-- Embedding of `get_threshold(data, threshold_str)`: the percentile branch
is entered whenever 'pct' occurs in the threshold string and immediately
fails with NameError (missing `import re`); otherwise the string is parsed
as a literal number. -/
def get_threshold (dataVals : List ℚ) (threshold_str : String) : Option ℚ :=
  let _ := dataVals
  if containsSub "pct".data threshold_str.data then
    none
  else
    parseDecimal threshold_str

/-- C5 evaluation at the failing input: on the sample 1..100 the percentile
specification '90pct' crashes with NameError (modelled none) instead of
resolving to a threshold near 90, while a literal threshold string is parsed
as a number. -/
theorem C5_percentile_crash :
    get_threshold ((List.range 100).map (fun k => ((k : ℚ) + 1))) "90pct" = none
  ∧ get_threshold ((List.range 100).map (fun k => ((k : ℚ) + 1))) "90" = some 90 := by
  constructor
  · rfl
  · have h : get_threshold ((List.range 100).map (fun k => ((k : ℚ) + 1))) "90"
        = some (1 * ((90 : ℕ) : ℚ)) := rfl
    rw [h]
    norm_num

/-
## Composite polarity (claim C1)

The code builds `metric_data_included = numpy.ma.masked_array(metric_data,
mask=included_indexes)` and takes its mean.  In a masked array a True mask bit
EXCLUDES the element from the mean, so the composite is averaged over the
positions where sample <= threshold, the complement of what the spec's
`mean(metric[included])` requires.
-/

/-- C1 evaluation at the spec's end-to-end scenario 2 (sample 1..10, literal
threshold 5, metric values 10·sample): the code's composite is 30, the mean of
the metric at the positions where sample ≤ 5, whereas the mean over the
included positions (sample > 5) required by the claim is 80. -/
theorem C1_composite_polarity :
    composite_mean [1, 2, 3, 4, 5, 6, 7, 8, 9, 10]
      [10, 20, 30, 40, 50, 60, 70, 80, 90, 100] 5 = 30
  ∧ composite_spec_mean [1, 2, 3, 4, 5, 6, 7, 8, 9, 10]
      [10, 20, 30, 40, 50, 60, 70, 80, 90, 100] 5 = 80
  ∧ composite_mean [1, 2, 3, 4, 5, 6, 7, 8, 9, 10]
      [10, 20, 30, 40, 50, 60, 70, 80, 90, 100] 5
      ≠ composite_spec_mean [1, 2, 3, 4, 5, 6, 7, 8, 9, 10]
          [10, 20, 30, 40, 50, 60, 70, 80, 90, 100] 5 := by
  refine ⟨?h1, ?h2, ?h3⟩
  case h1 => norm_num [composite_mean, maskedMean, included_indexes, List.zip]
  case h2 => norm_num [composite_spec_mean, List.zip]
  case h3 =>
    norm_num [composite_mean, composite_spec_mean, maskedMean, included_indexes, List.zip]

/-
## Significance test metadata (convenient_universal.py, get_significance)

The source computes `t, pvals = stats.ttest_ind(data_included, data_excluded,
axis=0, equal_var=True)` — scipy is an external collaborator, so the p-value
field is modelled as an opaque pass-through argument — then PRINTS a warning
about autocorrelation and equal variances to stdout, and returns `pvals`
together with the attribute dictionary `pval_atts` built below.  The warning
is not part of the returned attributes.
-/

/-- History attribute string of `pval_atts`, with both sample sizes
interpolated (`str(size_included)`, `str(size_excluded)`). -/
def sigHistory (size_included size_excluded : ℕ) : String :=
  "Standard independent two sample t-test comparing the data sample that meets the composite criteria (size="
    ++ toString size_included
    ++ ") to a sample containing the remaining data (size="
    ++ toString size_excluded ++ ")"

/-- Return value of `get_significance`: the p-value field and the attribute
mapping. -/
structure SigResult where
  pvals : List ℚ
  atts : List (String × String)

/-- Embedding of `get_significance(data_included, data_excluded,
size_included, size_excluded)`: the scipy p-values are passed through
unchanged and the attribute dictionary is built exactly as in the source. -/
def get_significance (ttest_pvals : List ℚ) (size_included size_excluded : ℕ) :
    SigResult where
  pvals := ttest_pvals
  atts :=
    [("id", "p"),
     ("standard_name", "p_value"),
     ("long_name", "Two-tailed p-value"),
     ("units", " "),
     ("history", sigHistory size_included size_excluded),
     ("reference", "scipy.stats.ttest_ind(a, b, axis=t, equal_var=False)")]

/-- Helper: an exhibited infix makes `containsSub` true. -/
theorem containsSub_of_infix (a b : List Char) (h : a <:+: b) :
    containsSub a b = true := by
  simpa [containsSub] using h

set_option maxRecDepth 40000 in
/-- Counterexample to C6 as stated: at sample sizes 5 and 7 (p-value field
[1/2]), no attribute of the returned metadata mentions autocorrelation — the
disclaimer exists only as a console warning, so the returned metadata carries
no such disclaimer. -/
theorem C6_counterexample :
    ((get_significance [1/2] 5 7).atts.all
      (fun kv => !containsSub "autocorrelation".data kv.2.data)) = true := by
  decide

/-- C6 (amended): the returned p-values are exactly the t-test collaborator's
p-values (so they lie in [0, 1] whenever the collaborator's do), and the
returned metadata records both sample sizes inside its history attribute; the
autocorrelation/equal-variance disclaimer is printed to the console, not
recorded in the returned metadata. -/
theorem C6_sig_metadata (pv : List ℚ) (s1 s2 : ℕ)
    (hpv : ∀ p ∈ pv, 0 ≤ p ∧ p ≤ 1) :
    (get_significance pv s1 s2).pvals = pv
  ∧ (∀ p ∈ (get_significance pv s1 s2).pvals, 0 ≤ p ∧ p ≤ 1)
  ∧ ("history", sigHistory s1 s2) ∈ (get_significance pv s1 s2).atts
  ∧ containsSub (toString s1).data (sigHistory s1 s2).data = true
  ∧ containsSub (toString s2).data (sigHistory s1 s2).data = true := by
  refine ⟨rfl, ?_, ?_, ?_, ?_⟩
  · simpa [get_significance] using hpv
  · simp [get_significance]
  · refine containsSub_of_infix _ _ ?_
    refine ⟨"Standard independent two sample t-test comparing the data sample that meets the composite criteria (size=".data,
      (") to a sample containing the remaining data (size=" ++ toString s2 ++ ")").data, ?_⟩
    simp [sigHistory, String.data_append, List.append_assoc]
  · refine containsSub_of_infix _ _ ?_
    refine ⟨("Standard independent two sample t-test comparing the data sample that meets the composite criteria (size="
        ++ toString s1 ++ ") to a sample containing the remaining data (size=").data,
      ")".data, ?_⟩
    simp [sigHistory, String.data_append, List.append_assoc]

/-- Witness for C6 (amended) at p-value field [1/2] and sample sizes 5, 7. -/
theorem C6_sig_metadata_witness :
    (get_significance [1/2] 5 7).pvals = [1/2]
  ∧ (∀ p ∈ (get_significance [1/2] 5 7).pvals, 0 ≤ p ∧ p ≤ 1)
  ∧ ("history", sigHistory 5 7) ∈ (get_significance [1/2] 5 7).atts
  ∧ containsSub (toString 5).data (sigHistory 5 7).data = true
  ∧ containsSub (toString 7).data (sigHistory 5 7).data = true :=
  C6_sig_metadata [1/2] 5 7 (by norm_num)

/-
## Coefficient sanity check (remove_drift.py, coefficient_sanity_check)

Source, for the masked 4×(spatial) coefficient cube:
  nmasked_original = numpy.sum(coefficient_cube.data.mask)
  a_data = coefficient_cube.data[0, ...]
  crazy_mask_min = numpy.ma.where(a_data < var_min, True, False)
  crazy_mask_max = numpy.ma.where(a_data > var_max, True, False)
  new_mask = numpy.ma.mask_or(crazy_mask_min, crazy_mask_max)
  ncrazy = numpy.sum(crazy_mask_min) + numpy.sum(crazy_mask_max)
  new_mask = numpy.repeat(new_mask[numpy.newaxis, ...], 4, axis=0)
  nmasked_new = numpy.sum(new_mask)
  coefficient_cube.data.mask = new_mask
  assert nmasked_new == ncrazy * 4 + nmasked_original
numpy.ma semantics used by the embedding: a comparison on a masked slice is
masked at the masked points, `ma.where` keeps those points masked with data
False, and the masked-array sums `ncrazy_min`/`ncrazy_max` therefore count
only UNMASKED out-of-range points; `ma.mask_or` ends in `make_mask`, which
fills masked entries with True, so the combined mask is a plain boolean array
that is True at every originally-masked-in-'a' or out-of-range point, and
`nmasked_new` (a plain numpy sum) counts all of its True entries.  The new
mask REPLACES the cube's mask.  The leading `assert variable in [...]`
(UnsupportedVariableError) and the final failing assert are modelled by none.
The spatial shape is flattened to one axis `Fin n`.
-/

/-- Plausible range of the intercept coefficient per variable kind. -/
def varRange (varname : String) : Option (ℚ × ℚ) :=
  if varname = "sea_water_potential_temperature" then some (250, 330)
  else if varname = "sea_water_salinity" then some (2, 55)
  else none

/-- Masked 4×(spatial) coefficient array: values and validity mask, leading
axis of length exactly 4 ordered (a, b, c, d). -/
structure MaskedCoeffs (n : ℕ) where
  data : Fin 4 → Fin n → ℚ
  mask : Fin 4 → Fin n → Bool

/-- Count of True entries of a boolean spatial field. -/
def countTrue {n : ℕ} (f : Fin n → Bool) : ℕ :=
  ∑ p : Fin n, if f p then 1 else 0

/-- Total masked-element count of the cube (numpy.sum of the full mask). -/
def totalMasked {n : ℕ} (c : MaskedCoeffs n) : ℕ :=
  ∑ i : Fin 4, countTrue (c.mask i)

/-- Data part of `crazy_mask_min`: True exactly at unmasked points whose 'a'
coefficient is below the plausible minimum. -/
def crazyMinMask {n : ℕ} (c : MaskedCoeffs n) (vmin : ℚ) : Fin n → Bool :=
  fun p => !c.mask 0 p && decide (c.data 0 p < vmin)

/-- Data part of `crazy_mask_max`: True exactly at unmasked points whose 'a'
coefficient is above the plausible maximum. -/
def crazyMaxMask {n : ℕ} (c : MaskedCoeffs n) (vmax : ℚ) : Fin n → Bool :=
  fun p => !c.mask 0 p && decide (vmax < c.data 0 p)

/-- Result of `ma.mask_or` + `make_mask`: out-of-range or originally masked
in the 'a' slice. -/
def sanity_new_mask {n : ℕ} (c : MaskedCoeffs n) (vmin vmax : ℚ) : Fin n → Bool :=
  fun p => c.mask 0 p || (crazyMinMask c vmin p || crazyMaxMask c vmax p)

/-- The `ncrazy = ncrazy_min + ncrazy_max` count of the source. -/
def sanity_ncrazy {n : ℕ} (c : MaskedCoeffs n) (vmin vmax : ℚ) : ℕ :=
  countTrue (crazyMinMask c vmin) + countTrue (crazyMaxMask c vmax)

/-- Embedding of `coefficient_sanity_check(coefficient_cube, variable)`:
returns the re-masked cube, `ncrazy` and the point count `npoints` recorded
in the summary string, or none when an assert fails. -/
def coefficient_sanity_check {n : ℕ} (cube : MaskedCoeffs n) (varname : String) :
    Option (MaskedCoeffs n × ℕ × ℕ) :=
  match varRange varname with
  | none => none
  | some (vmin, vmax) =>
      let nmasked_original := totalMasked cube
      let ncrazy := sanity_ncrazy cube vmin vmax
      let nmasked_new := 4 * countTrue (sanity_new_mask cube vmin vmax)
      let new_cube : MaskedCoeffs n :=
        ⟨cube.data, fun _ p => sanity_new_mask cube vmin vmax p⟩
      if nmasked_new = ncrazy * 4 + nmasked_original then some (new_cube, ncrazy, n)
      else none

/-- Counterexample to C4 as stated: a single-point cube whose 'b' slice is
masked but whose 'a' slice is unmasked and in range.  The validator replaces
the mask by the (empty) out-of-range mask, so its own post-hoc assertion
`nmasked_new == ncrazy*4 + nmasked_original` fails (0 ≠ 0 + 1): the
validator does not run to completion, and no post-validation state satisfies
the claimed count identity. -/
theorem C4_counterexample :
    (coefficient_sanity_check
      ({ data := fun i _ => if i = 0 then 300 else 0,
         mask := fun i _ => decide (i = 1) } : MaskedCoeffs 1)
      "sea_water_potential_temperature").isNone = true := by
  decide

/-- C4 (amended): for a masked coefficient array whose pre-existing mask
marks the same spatial points in all four coefficient slices, the validator
succeeds; the data values are unchanged, the total masked count grows by
exactly 4·ncrazy, and both mask and data of every in-range point are
untouched. -/
theorem C4_sanity_check {n : ℕ} (cube : MaskedCoeffs n) (varname : String)
    (vmin vmax : ℚ) (hvar : varRange varname = some (vmin, vmax))
    (hmask : ∀ i p, cube.mask i p = cube.mask 0 p) :
    ∃ newCube : MaskedCoeffs n, ∃ ncrazy : ℕ,
      coefficient_sanity_check cube varname = some (newCube, ncrazy, n)
      ∧ ncrazy = sanity_ncrazy cube vmin vmax
      ∧ newCube.data = cube.data
      ∧ totalMasked newCube = totalMasked cube + 4 * ncrazy
      ∧ (∀ p, vmin ≤ cube.data 0 p → cube.data 0 p ≤ vmax →
          ∀ i, newCube.mask i p = cube.mask i p) := by
  have hlt : vmin < vmax := by
    unfold varRange at hvar
    split at hvar
    · simp only [Option.some.injEq, Prod.mk.injEq] at hvar
      obtain ⟨rfl, rfl⟩ := hvar
      norm_num
    · split at hvar
      · simp only [Option.some.injEq, Prod.mk.injEq] at hvar
        obtain ⟨rfl, rfl⟩ := hvar
        norm_num
      · exact absurd hvar (by simp)
  have hpt : ∀ p : Fin n,
      (if sanity_new_mask cube vmin vmax p = true then (1 : ℕ) else 0)
        = (if cube.mask 0 p = true then 1 else 0)
          + ((if crazyMinMask cube vmin p = true then 1 else 0)
              + (if crazyMaxMask cube vmax p = true then 1 else 0)) := by
    intro p
    cases hm : cube.mask 0 p with
    | true => simp [sanity_new_mask, crazyMinMask, crazyMaxMask, hm]
    | false =>
        cases hmin : decide (cube.data 0 p < vmin) with
        | false => simp [sanity_new_mask, crazyMinMask, crazyMaxMask, hm, hmin]
        | true =>
            have hnot : decide (vmax < cube.data 0 p) = false := by
              rw [decide_eq_false_iff_not]
              have hbelow := of_decide_eq_true hmin
              intro habove
              linarith
            simp [sanity_new_mask, crazyMinMask, crazyMaxMask, hm, hmin, hnot]
  have hsplit : countTrue (sanity_new_mask cube vmin vmax)
      = countTrue (cube.mask 0) + sanity_ncrazy cube vmin vmax := by
    unfold countTrue sanity_ncrazy
    rw [Finset.sum_congr rfl (fun p _ => hpt p), Finset.sum_add_distrib,
      Finset.sum_add_distrib]
    rfl
  have h40 : totalMasked cube = 4 * countTrue (cube.mask 0) := by
    unfold totalMasked
    rw [Finset.sum_congr rfl
      (fun i _ => (by
        unfold countTrue
        exact Finset.sum_congr rfl (fun p _ => by rw [hmask i p]) :
          countTrue (cube.mask i) = countTrue (cube.mask 0)))]
    simp [Finset.sum_const, Finset.card_univ, mul_comm]
  have hcond : 4 * countTrue (sanity_new_mask cube vmin vmax)
      = sanity_ncrazy cube vmin vmax * 4 + totalMasked cube := by
    rw [hsplit, h40]
    ring
  refine ⟨⟨cube.data, fun _ p => sanity_new_mask cube vmin vmax p⟩,
    sanity_ncrazy cube vmin vmax, ?_, rfl, rfl, ?_, ?_⟩
  · unfold coefficient_sanity_check
    rw [hvar]
    simp only [hcond, if_pos]
  · show (∑ _i : Fin 4, countTrue (sanity_new_mask cube vmin vmax))
        = totalMasked cube + 4 * sanity_ncrazy cube vmin vmax
    rw [Finset.sum_const, Finset.card_univ, Fintype.card_fin, smul_eq_mul,
      hsplit, h40]
    ring
  · intro p hge hle i
    have hmin : decide (cube.data 0 p < vmin) = false := by
      rw [decide_eq_false_iff_not]
      exact not_lt.mpr hge
    have hmax : decide (vmax < cube.data 0 p) = false := by
      rw [decide_eq_false_iff_not]
      exact not_lt.mpr hle
    simp [sanity_new_mask, crazyMinMask, crazyMaxMask, hmin, hmax, hmask i p]

/-- Uniformly unmasked 2-point cube used as the C4 witness: the 'a' values
are 300 (in range for potential temperature) and 340 (out of range). -/
def cubeC4Witness : MaskedCoeffs 2 where
  data := fun i p => if i = 0 then (if p = 0 then 300 else 340) else 0
  mask := fun _ _ => false

/-- Witness for C4 (amended) on `cubeC4Witness`. -/
theorem C4_sanity_check_witness :
    ∃ newCube : MaskedCoeffs 2, ∃ ncrazy : ℕ,
      coefficient_sanity_check cubeC4Witness "sea_water_potential_temperature"
          = some (newCube, ncrazy, 2)
      ∧ ncrazy = sanity_ncrazy cubeC4Witness 250 330
      ∧ newCube.data = cubeC4Witness.data
      ∧ totalMasked newCube = totalMasked cubeC4Witness + 4 * ncrazy
      ∧ (∀ p, 250 ≤ cubeC4Witness.data 0 p → cubeC4Witness.data 0 p ≤ 330 →
          ∀ i, newCube.mask i p = cubeC4Witness.mask i p) :=
  C4_sanity_check cubeC4Witness "sea_water_potential_temperature" 250 330 rfl
    (fun _ _ => rfl)

/-
## Longitude range adjustment (convenient_universal.py, adjust_lon_range)

Source:
  interval360 = 2.0*numpy.pi if radians else 360.0
  end = start + interval360
  while numpy.sum(less_than_start) != 0:
      lons = numpy.where(lons < start, lons + interval360, lons)
      less_than_start = lons < start
  while numpy.sum(more_than_end) != 0:
      lons = numpy.where(lons >= end, lons - interval360, lons)
      more_than_end = lons >= end
Each whole-array `where` pass only modifies the out-of-range elements, so the
two loops act on every element independently: an element is bumped up by the
interval until it is no longer below `start`, then bumped down until it is no
longer at or above `end`.  The interval length is a parameter `iv` (360 in
degree mode, 2π in radian mode) required to be positive, which is what makes
the source loops terminate.
-/

/-- Decreasing measure for one pass of the raise loop. -/
theorem ceil_measure_lt (start iv x : ℚ) (hiv : 0 < iv) (h : x < start) :
    (⌈(start - (x + iv)) / iv⌉).toNat < (⌈(start - x) / iv⌉).toNat := by
  have h1 : (start - (x + iv)) / iv = (start - x) / iv - 1 := by
    field_simp
    ring
  have h2 : ⌈(start - x) / iv - 1⌉ = ⌈(start - x) / iv⌉ - 1 := by
    simpa using Int.ceil_sub_int ((start - x) / iv) 1
  have h3 : (1 : ℤ) ≤ ⌈(start - x) / iv⌉ :=
    Int.one_le_ceil_iff.mpr (div_pos (by linarith) hiv)
  rw [h1, h2]
  omega

/-- Decreasing measure for one pass of the lower loop. -/
theorem floor_measure_lt (endv iv x : ℚ) (hiv : 0 < iv) (h : endv ≤ x) :
    (⌊(x - iv - endv) / iv⌋ + 1).toNat < (⌊(x - endv) / iv⌋ + 1).toNat := by
  have h1 : (x - iv - endv) / iv = (x - endv) / iv - 1 := by
    field_simp
    ring
  have h2 : ⌊(x - endv) / iv - 1⌋ = ⌊(x - endv) / iv⌋ - 1 := by
    simpa using Int.floor_sub_int ((x - endv) / iv) 1
  have h3 : (0 : ℤ) ≤ ⌊(x - endv) / iv⌋ :=
    Int.floor_nonneg.mpr (div_nonneg (by linarith) hiv.le)
  rw [h1, h2]
  omega

/-- Per-element model of the first while loop: add the interval while the
value is below `start`. -/
def addUntilGe (start iv : ℚ) (hiv : 0 < iv) (x : ℚ) : ℚ :=
  if h : x < start then addUntilGe start iv hiv (x + iv) else x
termination_by (⌈(start - x) / iv⌉).toNat
decreasing_by exact ceil_measure_lt start iv x hiv h

/-- Per-element model of the second while loop: subtract the interval while
the value is at or above `endv`. -/
def subUntilLt (endv iv : ℚ) (hiv : 0 < iv) (x : ℚ) : ℚ :=
  if h : endv ≤ x then subUntilLt endv iv hiv (x - iv) else x
termination_by (⌊(x - endv) / iv⌋ + 1).toNat
decreasing_by exact floor_measure_lt endv iv x hiv h

/-- Embedding of `adjust_lon_range(lons, radians, start)` with the interval
length `iv` (2π for radians=True, 360 for radians=False) made a parameter. -/
def adjust_lon_range (lons : List ℚ) (start iv : ℚ) (hiv : 0 < iv) : List ℚ :=
  (lons.map (addUntilGe start iv hiv)).map (subUntilLt (start + iv) iv hiv)

/-- After the raise loop no value is below `start`. -/
theorem addUntilGe_ge (start iv : ℚ) (hiv : 0 < iv) (x : ℚ) :
    start ≤ addUntilGe start iv hiv x := by
  unfold addUntilGe
  split
  next h => exact addUntilGe_ge start iv hiv (x + iv)
  next h => exact le_of_not_lt h
termination_by (⌈(start - x) / iv⌉).toNat
decreasing_by exact ceil_measure_lt start iv x hiv (by assumption)

/-- The raise loop only adds whole multiples of the interval. -/
theorem addUntilGe_shift (start iv : ℚ) (hiv : 0 < iv) (x : ℚ) :
    ∃ k : ℕ, addUntilGe start iv hiv x = x + k * iv := by
  unfold addUntilGe
  split
  next h =>
    obtain ⟨k, hk⟩ := addUntilGe_shift start iv hiv (x + iv)
    refine ⟨k + 1, ?_⟩
    rw [hk]
    push_cast
    ring
  next h => exact ⟨0, by simp⟩
termination_by (⌈(start - x) / iv⌉).toNat
decreasing_by exact ceil_measure_lt start iv x hiv (by assumption)

/-- After the lower loop every value is below `endv`. -/
theorem subUntilLt_lt (endv iv : ℚ) (hiv : 0 < iv) (x : ℚ) :
    subUntilLt endv iv hiv x < endv := by
  unfold subUntilLt
  split
  next h => exact subUntilLt_lt endv iv hiv (x - iv)
  next h => exact lt_of_not_le h
termination_by (⌊(x - endv) / iv⌋ + 1).toNat
decreasing_by exact floor_measure_lt endv iv x hiv (by assumption)

/-- The lower loop never drops a value below `endv - iv`. -/
theorem subUntilLt_ge (endv iv : ℚ) (hiv : 0 < iv) (x : ℚ)
    (hx : endv - iv ≤ x) : endv - iv ≤ subUntilLt endv iv hiv x := by
  unfold subUntilLt
  split
  next h => exact subUntilLt_ge endv iv hiv (x - iv) (by linarith)
  next h => exact hx
termination_by (⌊(x - endv) / iv⌋ + 1).toNat
decreasing_by exact floor_measure_lt endv iv x hiv (by assumption)

/-- The lower loop only subtracts whole multiples of the interval. -/
theorem subUntilLt_shift (endv iv : ℚ) (hiv : 0 < iv) (x : ℚ) :
    ∃ k : ℕ, subUntilLt endv iv hiv x = x - k * iv := by
  unfold subUntilLt
  split
  next h =>
    obtain ⟨k, hk⟩ := subUntilLt_shift endv iv hiv (x - iv)
    refine ⟨k + 1, ?_⟩
    rw [hk]
    push_cast
    ring
  next h => exact ⟨0, by simp⟩
termination_by (⌊(x - endv) / iv⌋ + 1).toNat
decreasing_by exact floor_measure_lt endv iv x hiv (by assumption)

/-- C10: every element of the array returned by adjust_lon_range lies in the
half-open interval [start, start + iv) and differs from the corresponding
input element by an integer multiple of the interval length. -/
theorem C10_adjust_lon_range (lons : List ℚ) (start iv : ℚ) (hiv : 0 < iv) :
    (adjust_lon_range lons start iv hiv).length = lons.length
  ∧ ∀ p ∈ (adjust_lon_range lons start iv hiv).zip lons,
      (start ≤ p.1 ∧ p.1 < start + iv) ∧ ∃ k : ℤ, p.1 = p.2 + k * iv := by
  constructor
  · simp [adjust_lon_range]
  · intro p hp
    have hzip : ∀ l : List ℚ,
        ((l.map (addUntilGe start iv hiv)).map (subUntilLt (start + iv) iv hiv)).zip l
          = l.map (fun a =>
              (subUntilLt (start + iv) iv hiv (addUntilGe start iv hiv a), a)) := by
      intro l
      induction l with
      | nil => rfl
      | cons a t ih => simp only [List.map_cons, List.zip_cons_cons, ih]
    rw [adjust_lon_range, hzip] at hp
    obtain ⟨a, _, rfl⟩ := List.mem_map.mp hp
    constructor
    · constructor
      · have h1 := addUntilGe_ge start iv hiv a
        have h2 := subUntilLt_ge (start + iv) iv hiv
          (addUntilGe start iv hiv a) (by linarith)
        simpa using h2
      · exact subUntilLt_lt (start + iv) iv hiv (addUntilGe start iv hiv a)
    · obtain ⟨k1, hk1⟩ := addUntilGe_shift start iv hiv a
      obtain ⟨k2, hk2⟩ := subUntilLt_shift (start + iv) iv hiv
        (addUntilGe start iv hiv a)
      refine ⟨(k1 : ℤ) - (k2 : ℤ), ?_⟩
      rw [hk2, hk1]
      push_cast
      ring

/-- Witness for C10 at longitudes [-50, 400], start 0, interval 360. -/
theorem C10_adjust_lon_range_witness :
    (adjust_lon_range [-50, 400] 0 360 (by norm_num)).length
        = ([-50, 400] : List ℚ).length
  ∧ ∀ p ∈ (adjust_lon_range [-50, 400] 0 360 (by norm_num)).zip [-50, 400],
      ((0 : ℚ) ≤ p.1 ∧ p.1 < 0 + 360) ∧ ∃ k : ℤ, p.1 = p.2 + k * 360 :=
  C10_adjust_lon_range [-50, 400] 0 360 (by norm_num)
